import Mathlib

/-
Verification of the jetstream-pg-writer core against its specification.

The definitions below are a shallow embedding of the TypeScript source:
  - packages/write-processor/src/handlers/base.ts   (BaseHandler)
  - packages/write-gateway/src/client.ts            (WriteClient)
  - packages/write-gateway/src/main.ts              (POST handlers)
  - shared cache utilities (invalidateNamespace, setTrackedCache)
  - the CDC consumer (consumeCdcEvents)

JavaScript thrown values are modelled by the type Thrown; external effects
(NATS ack / nak / DLQ publish, Redis commands) are modelled by explicit
effect lists and state-passing; Postgres is modelled by an explicit Db state
with the write_operations ledger and the handled domain table.
-/

namespace JPW

/-- A JavaScript thrown value as the processor's catch blocks see it:
either an Error carrying an optional string code field (pg errors carry
their SQLSTATE there) and a message, or a thrown non-Error value. -/
inductive Thrown where
  | jsError (code : Option String) (message : String)
  | nonError
deriving DecidableEq, Repr

/-- Postgres unique-violation SQLSTATE, from base.ts. -/
def PG_UNIQUE_VIOLATION : String := "23505"

/-- Safelist of retryable Postgres error codes, from base.ts. -/
def PG_RETRYABLE_CODES : List String :=
  ["08000", "08003", "08006", "40001", "40P01", "53300", "57P01", "57P02", "57P03"]

/-- BaseHandler.isRetryable: an error is retryable exactly when it is an
Error whose code field is a string in the safelist. -/
def isRetryable : Thrown → Bool
  | .jsError (some c) _ => PG_RETRYABLE_CODES.contains c
  | _ => false

/-- Does the thrown value carry the given string code (the
"error instanceof Error and error.code === c" test of base.ts)? -/
def hasCode (e : Thrown) (c : String) : Bool :=
  match e with
  | .jsError (some c2) _ => c2 == c
  | _ => false

/-- Error message extraction: message when the value is an Error, the
literal "Unknown error" otherwise (base.ts). -/
def errorMessage : Thrown → String
  | .jsError _ m => m
  | .nonError => "Unknown error"

/-- C3: the processor's error classification returns retryable exactly when
the error carries a string Postgres error code in the safelist
{08000, 08003, 08006, 40001, 40P01, 53300, 57P01, 57P02, 57P03}; every
other error, including any error without a string code, is non-retryable. -/
theorem C3_isRetryable_safelist (e : Thrown) :
    isRetryable e = true ↔
      ∃ c m, e = Thrown.jsError (some c) m ∧ c ∈ PG_RETRYABLE_CODES := by
  cases e with
  | nonError => simp [isRetryable]
  | jsError oc m =>
      cases oc with
      | none => simp [isRetryable]
      | some c =>
          simp [isRetryable]

/-! Cache keystore model (shared cache utilities). -/

/-- A Redis value: a plain string entry or a set-valued key. -/
inductive RVal where
  | str (s : String)
  | rset (members : List String)
deriving DecidableEq, Repr

/-- The Redis keyspace, as a total map from keys to optional values. -/
def RedisState : Type := String → Option RVal

/-- The two cache namespaces of CACHE_KEYS_SET. -/
inductive CacheNamespace where
  | users
  | orders
deriving DecidableEq, Repr

/-- CACHE_KEYS_SET: the tracking-set key of a namespace. -/
def cacheKeysSet : CacheNamespace → String
  | .users => "cache:keys:users"
  | .orders => "cache:keys:orders"

/-- SMEMBERS: the members of a set-valued key; empty when the key is
absent or not set-valued. -/
def smembers (r : RedisState) (k : String) : List String :=
  match r k with
  | some (RVal.rset ms) => ms
  | _ => []

/-- One key of a DEL command: remove the key when present, counting it;
deleting an absent key is a no-op. -/
def delStep (acc : RedisState × Nat) (k : String) : RedisState × Nat :=
  match acc.1 k with
  | some _ => (fun k2 => if k2 = k then none else acc.1 k2, acc.2 + 1)
  | none => acc

/-- DEL over a list of keys, applied left to right: removes each key that
is present and counts how many keys were actually removed. -/
def delKeys (r : RedisState) (ks : List String) : RedisState × Nat :=
  ks.foldl delStep (r, 0)

/-- invalidateNamespace from the shared cache module: read the tracking
set, return 0 when it is empty, otherwise delete every member key plus the
tracking set itself and return the deletion count minus one (the set is
not counted). -/
def invalidateNamespace (r : RedisState) (ns : CacheNamespace) : RedisState × Nat :=
  let setKey := cacheKeysSet ns
  let keys := smembers r setKey
  if keys.length = 0 then (r, 0)
  else
    let d := delKeys r (keys ++ [setKey])
    (d.1, d.2 - 1)

theorem foldl_delStep_count (ks : List String) (r : RedisState) (n : Nat) :
    (ks.foldl delStep (r, n)).2 = n + (ks.foldl delStep (r, 0)).2 := by
  induction ks generalizing r n with
  | nil => simp
  | cons k ks ih =>
      simp only [List.foldl_cons]
      cases hk : r k with
      | some v =>
          simp only [delStep, hk]
          rw [ih _ (n + 1), ih _ 1]
          omega
      | none =>
          simp only [delStep, hk]
          exact ih r n

theorem foldl_delStep_fst_indep (ks : List String) (r : RedisState) (n : Nat) :
    (ks.foldl delStep (r, n)).1 = (ks.foldl delStep (r, 0)).1 := by
  induction ks generalizing r n with
  | nil => simp
  | cons k ks ih =>
      simp only [List.foldl_cons]
      cases hk : r k with
      | some v => simp only [delStep, hk]; rw [ih _ (n + 1), ih _ 1]
      | none => simp only [delStep, hk]; exact ih r n

theorem delKeys_fst (ks : List String) (r : RedisState) (k2 : String) :
    (delKeys r ks).1 k2 = if k2 ∈ ks then none else r k2 := by
  simp only [delKeys]
  induction ks generalizing r with
  | nil => simp
  | cons k ks ih =>
      simp only [List.foldl_cons]
      cases hk : r k with
      | some v =>
          have hstep : delStep (r, 0) k =
              (fun j => if j = k then none else r j, 1) := by
            simp [delStep, hk]
          rw [hstep, foldl_delStep_fst_indep ks _ 1, ih]
          by_cases h2 : k2 = k
          · subst h2
            by_cases hm : k2 ∈ ks <;> simp [hm]
          · by_cases hm : k2 ∈ ks <;> simp [List.mem_cons, h2, hm]
      | none =>
          have hstep : delStep (r, 0) k = (r, 0) := by simp [delStep, hk]
          rw [hstep, ih]
          by_cases h2 : k2 = k
          · subst h2
            by_cases hm : k2 ∈ ks <;> simp [List.mem_cons, hm, hk]
          · by_cases hm : k2 ∈ ks <;> simp [List.mem_cons, h2, hm]

theorem delKeys_count (ks : List String) (r : RedisState) (hnd : ks.Nodup) :
    (delKeys r ks).2 = ks.countP (fun k => (r k).isSome) := by
  simp only [delKeys]
  induction ks generalizing r with
  | nil => simp
  | cons k ks ih =>
      rcases List.nodup_cons.mp hnd with ⟨hk_notin, hnd2⟩
      simp only [List.foldl_cons]
      cases hk : r k with
      | some v =>
          have hstep : delStep (r, 0) k =
              (fun j => if j = k then none else r j, 1) := by
            simp [delStep, hk]
          rw [hstep, foldl_delStep_count ks _ 1, ih _ hnd2]
          have hcong : ks.countP
              (fun k2 => (if k2 = k then (none : Option RVal) else r k2).isSome)
              = ks.countP (fun k2 => (r k2).isSome) := by
            apply List.countP_congr
            intro a ha
            have : a ≠ k := fun h => hk_notin (h ▸ ha)
            simp [this]
          rw [hcong, List.countP_cons]
          simp [hk]
          omega
      | none =>
          have hstep : delStep (r, 0) k = (r, 0) := by simp [delStep, hk]
          rw [hstep, ih _ hnd2, List.countP_cons]
          simp [hk]

/-- C8: invalidateNamespace reads the tracking set for the namespace,
deletes every member key together with the tracking set itself, and
returns the number of data keys actually deleted, not counting the set;
on an empty tracking set it returns 0 and deletes nothing, and members
that have already expired are tolerated since deleting an absent key is
a no-op (they simply do not count). -/
theorem C8_invalidateNamespace (r : RedisState) (ns : CacheNamespace)
    (hnd : (smembers r (cacheKeysSet ns)).Nodup)
    (hsk : cacheKeysSet ns ∉ smembers r (cacheKeysSet ns)) :
    (smembers r (cacheKeysSet ns) = [] → invalidateNamespace r ns = (r, 0)) ∧
    (invalidateNamespace r ns).2 =
      (smembers r (cacheKeysSet ns)).countP (fun k => (r k).isSome) ∧
    (smembers r (cacheKeysSet ns) ≠ [] →
      ∀ k, (k ∈ smembers r (cacheKeysSet ns) ∨ k = cacheKeysSet ns) →
        (invalidateNamespace r ns).1 k = none) ∧
    (∀ k, k ∉ smembers r (cacheKeysSet ns) → k ≠ cacheKeysSet ns →
      (invalidateNamespace r ns).1 k = r k) := by
  set setKey := cacheKeysSet ns with hset
  set keys := smembers r setKey with hkeys
  by_cases hemp : keys.length = 0
  · have hnil : keys = [] := List.length_eq_zero.mp hemp
    refine ⟨fun _ => by simp [invalidateNamespace, ← hkeys, hemp], ?_, ?_, ?_⟩
    · simp [invalidateNamespace, ← hkeys, hemp, hnil]
    · intro hne; exact absurd hnil hne
    · intro k _ _; simp [invalidateNamespace, ← hkeys, hemp]
  · have hpres : (r setKey).isSome := by
      by_contra hcon
      have : r setKey = none := by
        cases h : r setKey
        · rfl
        · rw [h] at hcon; simp at hcon
      have : keys = [] := by rw [hkeys]; simp [smembers, this]
      exact hemp (by simp [this])
    have hinv : invalidateNamespace r ns = ((delKeys r (keys ++ [setKey])).1,
        (delKeys r (keys ++ [setKey])).2 - 1) := by
      simp [invalidateNamespace, ← hkeys, hemp]
    have hndall : (keys ++ [setKey]).Nodup := by
      rw [List.nodup_append]
      exact ⟨hnd, List.nodup_singleton _, by simpa using hsk⟩
    refine ⟨fun hnil => absurd (by simp [hnil]) hemp, ?_, ?_, ?_⟩
    · rw [hinv]
      simp only
      rw [delKeys_count _ _ hndall, List.countP_append]
      simp [hpres]
    · intro _ k hk
      rw [hinv]
      simp only
      rw [delKeys_fst]
      have : k ∈ keys ++ [setKey] := by
        rcases hk with h | h
        · exact List.mem_append_left _ h
        · exact List.mem_append_right _ (by simp [h])
      simp [this]
    · intro k hk1 hk2
      rw [hinv]
      simp only
      rw [delKeys_fst]
      have : k ∉ keys ++ [setKey] := by
        simp [List.mem_append, hk1, hk2]
      simp [this]

/-- A concrete keyspace exercising C8: the users tracking set holds two
keys, one of which has already expired. -/
def redisSample : RedisState := fun k =>
  if k = "cache:keys:users" then some (RVal.rset ["users:list:1", "users:list:2"])
  else if k = "users:list:1" then some (RVal.str "cached-page")
  else none

theorem C8_invalidateNamespace_witness :
    (invalidateNamespace redisSample CacheNamespace.users).2 =
      (smembers redisSample (cacheKeysSet CacheNamespace.users)).countP
        (fun k => (redisSample k).isSome) :=
  (C8_invalidateNamespace redisSample CacheNamespace.users
    (by decide) (by decide)).2.1

/-! Write gateway: WriteClient admission control and circuit breaker. -/

/-- BackpressureConfig from client.ts. -/
structure BackpressureConfig where
  maxInFlight : Nat
  circuitFailureThreshold : Nat
  circuitResetMs : Nat
deriving DecidableEq, Repr

/-- DEFAULT_CONFIG from client.ts. -/
def DEFAULT_CONFIG : BackpressureConfig :=
  { maxInFlight := 500, circuitFailureThreshold := 5, circuitResetMs := 10000 }

/-- The mutable backpressure and circuit-breaker fields of WriteClient. -/
structure ClientState where
  inFlight : Nat
  consecutiveFailures : Nat
  circuitOpen : Bool
  circuitOpenedAt : Nat
  halfOpenInProgress : Bool
deriving DecidableEq, Repr

/-- Result of the admission phase of WriteClient.write (everything before
the publish is awaited). -/
inductive AdmitResult where
  | admitted
  | circuitOpenErr
  | backpressureErr
deriving DecidableEq, Repr

/-- Admission phase of WriteClient.write: the circuit-breaker check (which
may set halfOpenInProgress to let the single half-open probe in), then the
in-flight cap check, then the in-flight increment that precedes the
publish. Runs synchronously, so it is atomic with respect to other calls. -/
def admitWrite (cfg : BackpressureConfig) (s : ClientState) (now : Nat) :
    ClientState × AdmitResult :=
  if s.circuitOpen then
    if now - s.circuitOpenedAt < cfg.circuitResetMs then
      (s, .circuitOpenErr)
    else if s.halfOpenInProgress then
      (s, .circuitOpenErr)
    else
      let s1 := { s with halfOpenInProgress := true }
      if cfg.maxInFlight ≤ s1.inFlight then
        (s1, .backpressureErr)
      else
        ({ s1 with inFlight := s1.inFlight + 1 }, .admitted)
  else
    if cfg.maxInFlight ≤ s.inFlight then
      (s, .backpressureErr)
    else
      ({ s with inFlight := s.inFlight + 1 }, .admitted)

/-- Completion phase of WriteClient.write, run when the awaited publish
resolves: on success close the circuit (if open) and zero the failure
counter; on failure bump the counter, then either reopen after a failed
half-open probe (resetting circuitOpenedAt) or open the circuit when the
threshold is reached; finally the in-flight count is decremented. -/
def complete (cfg : BackpressureConfig) (s : ClientState) (now : Nat)
    (pubOk : Bool) : ClientState :=
  let s1 :=
    if pubOk then
      let s2 :=
        if s.circuitOpen then
          { s with circuitOpen := false, halfOpenInProgress := false }
        else s
      { s2 with consecutiveFailures := 0 }
    else
      let s2 := { s with consecutiveFailures := s.consecutiveFailures + 1 }
      if s2.halfOpenInProgress then
        { s2 with circuitOpenedAt := now, halfOpenInProgress := false }
      else if cfg.circuitFailureThreshold ≤ s2.consecutiveFailures ∧
          s2.circuitOpen = false then
        { s2 with circuitOpen := true, circuitOpenedAt := now }
      else s2
  { s1 with inFlight := s1.inFlight - 1 }

/-- A sequence of admission attempts (each a write call arriving at the
given time), threading the client state and collecting each outcome. -/
def admitSeq (cfg : BackpressureConfig) (s : ClientState) :
    List Nat → ClientState × List AdmitResult
  | [] => (s, [])
  | now :: rest =>
      let r := admitWrite cfg s now
      let rs := admitSeq cfg r.1 rest
      (rs.1, r.2 :: rs.2)

/-- C5: the circuit breaker state machine. (1) A publish failure with the
circuit closed and the counter reaching the threshold opens the circuit
and records the time; (2) while open with elapsed below circuitResetMs
every write is rejected with CircuitOpenError and the state is unchanged;
(3) at or after circuitResetMs a write finding a probe in progress is
rejected; (4) otherwise exactly one probe is admitted, and any concurrent
write arriving during the probe is rejected; (5) a successful probe
closes the circuit and zeroes the failure counter; (6) a failed probe
leaves the circuit open with circuitOpenedAt reset. -/
theorem C5_circuit_breaker (cfg : BackpressureConfig) (s : ClientState)
    (now : Nat) :
    (s.circuitOpen = false → s.halfOpenInProgress = false →
      cfg.circuitFailureThreshold ≤ s.consecutiveFailures + 1 →
      (complete cfg s now false).circuitOpen = true ∧
      (complete cfg s now false).circuitOpenedAt = now) ∧
    (s.circuitOpen = true → now - s.circuitOpenedAt < cfg.circuitResetMs →
      admitWrite cfg s now = (s, AdmitResult.circuitOpenErr)) ∧
    (s.circuitOpen = true → cfg.circuitResetMs ≤ now - s.circuitOpenedAt →
      s.halfOpenInProgress = true →
      admitWrite cfg s now = (s, AdmitResult.circuitOpenErr)) ∧
    (s.circuitOpen = true → cfg.circuitResetMs ≤ now - s.circuitOpenedAt →
      s.halfOpenInProgress = false → s.inFlight < cfg.maxInFlight →
      admitWrite cfg s now =
        ({ s with halfOpenInProgress := true, inFlight := s.inFlight + 1 },
          AdmitResult.admitted) ∧
      ∀ now2, (admitWrite cfg (admitWrite cfg s now).1 now2).2 =
        AdmitResult.circuitOpenErr) ∧
    (s.circuitOpen = true → s.halfOpenInProgress = true →
      (complete cfg s now true).circuitOpen = false ∧
      (complete cfg s now true).halfOpenInProgress = false ∧
      (complete cfg s now true).consecutiveFailures = 0) ∧
    (s.circuitOpen = true → s.halfOpenInProgress = true →
      (complete cfg s now false).circuitOpen = true ∧
      (complete cfg s now false).circuitOpenedAt = now ∧
      (complete cfg s now false).halfOpenInProgress = false) := by
  refine ⟨?_, ?_, ?_, ?_, ?_, ?_⟩
  · intro hopen hhalf hthr
    simp [complete, hopen, hhalf, hthr]
  · intro hopen helapsed
    simp [admitWrite, hopen, helapsed]
  · intro hopen helapsed hhalf
    simp [admitWrite, hopen, Nat.not_lt.mpr helapsed, hhalf]
  · intro hopen helapsed hhalf hcap
    have h1 : admitWrite cfg s now =
        ({ s with halfOpenInProgress := true, inFlight := s.inFlight + 1 },
          AdmitResult.admitted) := by
      simp [admitWrite, hopen, Nat.not_lt.mpr helapsed, hhalf, Nat.not_le.mpr hcap]
    refine ⟨h1, ?_⟩
    intro now2
    rw [h1]
    by_cases h2 : now2 - s.circuitOpenedAt < cfg.circuitResetMs <;>
      simp [admitWrite, hopen, h2]
  · intro hopen hhalf
    simp [complete, hopen, hhalf]
  · intro hopen hhalf
    simp [complete, hopen, hhalf]

theorem C5_circuit_breaker_witness :
    ((complete DEFAULT_CONFIG
        { inFlight := 0, consecutiveFailures := 4, circuitOpen := false,
          circuitOpenedAt := 0, halfOpenInProgress := false } 777 false).circuitOpen
        = true) ∧
    (admitWrite DEFAULT_CONFIG
        { inFlight := 0, consecutiveFailures := 5, circuitOpen := true,
          circuitOpenedAt := 777, halfOpenInProgress := false } 800
      = ({ inFlight := 0, consecutiveFailures := 5, circuitOpen := true,
            circuitOpenedAt := 777, halfOpenInProgress := false },
          AdmitResult.circuitOpenErr)) ∧
    ((complete DEFAULT_CONFIG
        { inFlight := 1, consecutiveFailures := 5, circuitOpen := true,
          circuitOpenedAt := 777, halfOpenInProgress := true } 20000 true).circuitOpen
        = false) :=
  ⟨((C5_circuit_breaker DEFAULT_CONFIG
      { inFlight := 0, consecutiveFailures := 4, circuitOpen := false,
        circuitOpenedAt := 0, halfOpenInProgress := false } 777).1
      rfl rfl (by decide)).1,
   (C5_circuit_breaker DEFAULT_CONFIG
      { inFlight := 0, consecutiveFailures := 5, circuitOpen := true,
        circuitOpenedAt := 777, halfOpenInProgress := false } 800).2.1
      rfl (by decide),
   ((C5_circuit_breaker DEFAULT_CONFIG
      { inFlight := 1, consecutiveFailures := 5, circuitOpen := true,
        circuitOpenedAt := 777, halfOpenInProgress := true } 20000).2.2.2.2.1
      rfl rfl).1⟩

/-- A concrete stuck-probe scenario: circuit open with the reset window
elapsed, no probe in progress, and the in-flight cap reached by pending
publishes. -/
def stuckProbeState : ClientState :=
  { inFlight := 500, consecutiveFailures := 5, circuitOpen := true,
    circuitOpenedAt := 0, halfOpenInProgress := false }

/-- C10 counterexample: in the claimed scenario the probe is indeed
rejected by the in-flight cap with halfOpenInProgress left set, but
halfOpenInProgress is not "never cleared" and paths in
WriteClient.write can still close the circuit: the backpressure
rejection presupposes maxInFlight publishes still awaiting their
PubAck inside write, and when one of them settles the completion code
of write runs — a successful settlement closes the circuit and clears
the flag, and a failed settlement clears the flag while resetting
circuitOpenedAt, re-arming the probe. -/
theorem C10_counterexample :
    (admitWrite DEFAULT_CONFIG stuckProbeState 10000).2
      = AdmitResult.backpressureErr ∧
    (admitWrite DEFAULT_CONFIG stuckProbeState 10000).1.halfOpenInProgress
      = true ∧
    (complete DEFAULT_CONFIG
        (admitWrite DEFAULT_CONFIG stuckProbeState 10000).1 10001
        true).circuitOpen = false ∧
    (complete DEFAULT_CONFIG
        (admitWrite DEFAULT_CONFIG stuckProbeState 10000).1 10001
        true).halfOpenInProgress = false ∧
    (complete DEFAULT_CONFIG
        (admitWrite DEFAULT_CONFIG stuckProbeState 10000).1 10001
        false).halfOpenInProgress = false ∧
    (complete DEFAULT_CONFIG
        (admitWrite DEFAULT_CONFIG stuckProbeState 10000).1 10001
        false).circuitOpenedAt = 10001 := by
  decide

/-- C10 amended: when the half-open probe is selected (circuit open,
reset window elapsed, no probe in progress) but the in-flight cap
rejects it, the BackpressureError is thrown after halfOpenInProgress
was set and the rejected call never clears it; admission attempts alone
can never clear it or close the circuit — every later write call is
rejected at admission with CircuitOpenError, at every time, state
unchanged — until one of the publishes still pending inside write
settles: a successful settlement closes the circuit and clears the
flag, and a failed settlement leaves the circuit open but clears the
flag and resets circuitOpenedAt, re-arming the probe. -/
theorem C10_halfopen_probe_leak_amended (cfg : BackpressureConfig)
    (s : ClientState) (now : Nat)
    (hopen : s.circuitOpen = true)
    (helapsed : cfg.circuitResetMs ≤ now - s.circuitOpenedAt)
    (hhalf : s.halfOpenInProgress = false)
    (hcap : cfg.maxInFlight ≤ s.inFlight) :
    admitWrite cfg s now =
      ({ s with halfOpenInProgress := true }, AdmitResult.backpressureErr) ∧
    (∀ nows : List Nat,
      admitSeq cfg { s with halfOpenInProgress := true } nows =
        ({ s with halfOpenInProgress := true },
          nows.map fun _ => AdmitResult.circuitOpenErr)) ∧
    (∀ t : Nat,
      (complete cfg { s with halfOpenInProgress := true } t
          true).circuitOpen = false ∧
      (complete cfg { s with halfOpenInProgress := true } t
          true).halfOpenInProgress = false ∧
      (complete cfg { s with halfOpenInProgress := true } t
          false).circuitOpen = true ∧
      (complete cfg { s with halfOpenInProgress := true } t
          false).halfOpenInProgress = false ∧
      (complete cfg { s with halfOpenInProgress := true } t
          false).circuitOpenedAt = t) := by
  refine ⟨?_, ?_, ?_⟩
  · simp [admitWrite, hopen, Nat.not_lt.mpr helapsed, hhalf, hcap]
  · intro nows
    induction nows with
    | nil => simp [admitSeq]
    | cons t rest ih =>
        have hstep : admitWrite cfg { s with halfOpenInProgress := true } t =
            ({ s with halfOpenInProgress := true },
              AdmitResult.circuitOpenErr) := by
          by_cases h2 : t - s.circuitOpenedAt < cfg.circuitResetMs <;>
            simp [admitWrite, hopen, h2]
        simp [admitSeq, hstep, ih]
  · intro t
    refine ⟨?_, ?_, ?_, ?_, ?_⟩ <;> simp [complete, hopen]

theorem C10_halfopen_probe_leak_amended_witness :
    admitWrite DEFAULT_CONFIG stuckProbeState 10000
      = ({ inFlight := 500, consecutiveFailures := 5, circuitOpen := true,
            circuitOpenedAt := 0, halfOpenInProgress := true },
          AdmitResult.backpressureErr) ∧
    admitSeq DEFAULT_CONFIG
        { inFlight := 500, consecutiveFailures := 5, circuitOpen := true,
          circuitOpenedAt := 0, halfOpenInProgress := true }
        [10001, 99999, 1000000]
      = ({ inFlight := 500, consecutiveFailures := 5, circuitOpen := true,
            circuitOpenedAt := 0, halfOpenInProgress := true },
          [AdmitResult.circuitOpenErr, AdmitResult.circuitOpenErr,
            AdmitResult.circuitOpenErr]) ∧
    (complete DEFAULT_CONFIG
        { inFlight := 500, consecutiveFailures := 5, circuitOpen := true,
          circuitOpenedAt := 0, halfOpenInProgress := true } 10001
        true).circuitOpen = false := by
  have h := C10_halfopen_probe_leak_amended DEFAULT_CONFIG stuckProbeState
    10000 rfl (by decide) rfl (by decide)
  exact ⟨h.1, h.2.1 [10001, 99999, 1000000], (h.2.2 10001).1⟩

/-! Write gateway: the POST /users and POST /orders route handlers. -/

/-- The possible results of awaiting writeClient.write in a route handler:
success, one of the two admission errors, or any other thrown value. -/
inductive WriteCallResult where
  | ok
  | backpressureError (message : String)
  | circuitOpenError (message : String)
  | otherError (e : Thrown)
deriving DecidableEq, Repr

/-- JSON body of a gateway response, with the fields any of the reply
paths may set. -/
structure ResponseBody where
  status : Option String
  operationId : Option String
  acceptedAt : Option String
  errMsg : Option String
deriving DecidableEq, Repr

/-- An HTTP reply from a route handler. -/
structure GatewayReply where
  statusCode : Nat
  retryAfter : Option String
  body : ResponseBody
deriving DecidableEq, Repr

/-- The shared shape of the POST /users and POST /orders handlers in
write-gateway main.ts: require the Idempotency-Key header, call
writeClient.write, map BackpressureError and CircuitOpenError to 503
with Retry-After, rethrow anything else, and otherwise reply 202 with
the queued body. acceptedAt is the serialized current time. -/
def handlePostWrite (idempotencyKey : Option String)
    (writeResult : WriteCallResult) (acceptedAt : String) :
    Except Thrown GatewayReply :=
  match idempotencyKey with
  | none =>
      .ok { statusCode := 400, retryAfter := none,
            body := { status := none, operationId := none, acceptedAt := none,
                      errMsg := some "Idempotency-Key header is required" } }
  | some key =>
      match writeResult with
      | .backpressureError m =>
          .ok { statusCode := 503, retryAfter := some "5",
                body := { status := none, operationId := none,
                          acceptedAt := none, errMsg := some m } }
      | .circuitOpenError m =>
          .ok { statusCode := 503, retryAfter := some "5",
                body := { status := none, operationId := none,
                          acceptedAt := none, errMsg := some m } }
      | .otherError e => .error e
      | .ok =>
          .ok { statusCode := 202, retryAfter := none,
                body := { status := some "queued", operationId := some key,
                          acceptedAt := some acceptedAt, errMsg := none } }

/-- C9 counterexample: an admitted POST with Idempotency-Key K1 is
answered 202 with operation_id equal to the key, but the status field of
the body is the string "queued", not "accepted" as the claim states. -/
theorem C9_counterexample :
    handlePostWrite (some "K1") WriteCallResult.ok "2026-01-01T00:00:00Z" =
      Except.ok
        { statusCode := 202, retryAfter := none,
          body := { status := some "queued", operationId := some "K1",
                    acceptedAt := some "2026-01-01T00:00:00Z",
                    errMsg := none } } ∧
    (some "queued" : Option String) ≠ some "accepted" := by
  exact ⟨rfl, by decide⟩

/-- C9 amended: for every admitted POST /users or POST /orders request
carrying an Idempotency-Key, the gateway responds 202 with body
status "queued", operation_id equal to the caller-supplied idempotency
key, and the accepted-at timestamp. -/
theorem C9_amended_queued_response (key acceptedAt : String) :
    handlePostWrite (some key) WriteCallResult.ok acceptedAt =
      Except.ok
        { statusCode := 202, retryAfter := none,
          body := { status := some "queued", operationId := some key,
                    acceptedAt := some acceptedAt, errMsg := none } } := rfl

/-! CDC consumer: cache invalidation from Debezium row-change events. -/

/-- The decoded Debezium event fields the consumer inspects. -/
structure CdcEvent where
  op : String
  userId : Option String
  orderId : Option String
deriving DecidableEq, Repr

/-- Accumulate the segment after the last dot of a character list. -/
def lastSegAux (cur : List Char) : List Char → List Char
  | [] => cur
  | c :: rest =>
      if c = Char.ofNat 46 then lastSegAux [] rest
      else lastSegAux (cur ++ [c]) rest

/-- The table a CDC message concerns: the last dot-separated segment of
its subject, as subject split on dots followed by pop in the source. -/
def subjectTable (subject : String) : String :=
  String.mk (lastSegAux [] subject.toList)

/-- Observable effects of handling one CDC message, in order. -/
inductive CdcEffect where
  | invalidate (ns : CacheNamespace)
  | ack
  | nak (delayMs : Nat)
deriving DecidableEq, Repr

/-- One iteration of consumeCdcEvents: decode the event (a decode error
is caught and naks), skip snapshot reads, invalidate the users namespace
for users-table events plus the orders namespace on a users delete,
invalidate the orders namespace for orders-table events, ack on success;
any error thrown while invalidating is caught and the message is nakked
with a 1 s delay. invFail says which invalidateNamespace calls throw. -/
def consumeCdcEvent (subject : String) (decoded : Except String CdcEvent)
    (invFail : CacheNamespace → Bool) : List CdcEffect :=
  match decoded with
  | .error _ => [.nak 1000]
  | .ok ev =>
      let table := subjectTable subject
      if ev.op = "r" then [.ack]
      else if table = "users" then
        if invFail .users then [.nak 1000]
        else if ev.op = "d" then
          if invFail .orders then [.invalidate .users, .nak 1000]
          else [.invalidate .users, .invalidate .orders, .ack]
        else [.invalidate .users, .ack]
      else if table = "orders" then
        if invFail .orders then [.nak 1000]
        else [.invalidate .orders, .ack]
      else [.ack]

/-- No-failure oracle: every invalidateNamespace call succeeds. -/
def noInvFail : CacheNamespace → Bool := fun _ => false

/-- C7: for every consumed CDC event, an op r event is acked with no
invalidation; a users-table event invalidates the users namespace, and
additionally the orders namespace when op is d; an orders-table event
invalidates the orders namespace; and every message is either acked (on
success) or nakked with a 1 s delay (on failure), a decode failure
being nakked outright. -/
theorem C7_cdc_invalidation (subject : String) (ev : CdcEvent)
    (invFail : CacheNamespace → Bool) :
    (ev.op = "r" → consumeCdcEvent subject (.ok ev) invFail = [CdcEffect.ack]) ∧
    (subjectTable subject = "users" → ev.op ≠ "r" → ev.op ≠ "d" →
      consumeCdcEvent subject (.ok ev) noInvFail =
        [CdcEffect.invalidate CacheNamespace.users, CdcEffect.ack]) ∧
    (subjectTable subject = "users" → ev.op = "d" →
      consumeCdcEvent subject (.ok ev) noInvFail =
        [CdcEffect.invalidate CacheNamespace.users,
          CdcEffect.invalidate CacheNamespace.orders, CdcEffect.ack]) ∧
    (subjectTable subject = "orders" → ev.op ≠ "r" →
      consumeCdcEvent subject (.ok ev) noInvFail =
        [CdcEffect.invalidate CacheNamespace.orders, CdcEffect.ack]) ∧
    (∀ decoded : Except String CdcEvent,
      (consumeCdcEvent subject decoded invFail).getLast? = some CdcEffect.ack ∨
      (consumeCdcEvent subject decoded invFail).getLast? =
        some (CdcEffect.nak 1000)) ∧
    (∀ msg : String, consumeCdcEvent subject (.error msg) invFail =
      [CdcEffect.nak 1000]) := by
  refine ⟨?_, ?_, ?_, ?_, ?_, ?_⟩
  · intro hr
    simp [consumeCdcEvent, hr]
  · intro htab hr hd
    have hd2 : ev.op = "d" ↔ False := by simp [hd]
    simp [consumeCdcEvent, htab, hr, noInvFail]
    intro h; exact absurd h hd
  · intro htab hd
    have hr : ¬ ev.op = "r" := by simp [hd]
    simp [consumeCdcEvent, htab, hr, hd, noInvFail]
  · intro htab hr
    by_cases husers : subjectTable subject = "users"
    · rw [husers] at htab
      exact absurd htab (by decide)
    · simp [consumeCdcEvent, husers, htab, hr, noInvFail]
  · intro decoded
    cases decoded with
    | error m => right; simp [consumeCdcEvent]
    | ok e =>
        by_cases hr : e.op = "r"
        · left; simp [consumeCdcEvent, hr]
        · by_cases husers : subjectTable subject = "users"
          · by_cases hfu : invFail .users
            · right; simp [consumeCdcEvent, hr, husers, hfu]
            · by_cases hd : e.op = "d"
              · by_cases hfo : invFail .orders
                · right; simp [consumeCdcEvent, hr, husers, hfu, hd, hfo]
                · left; simp [consumeCdcEvent, hr, husers, hfu, hd, hfo]
              · left; simp [consumeCdcEvent, hr, husers, hfu, hd]
          · by_cases horders : subjectTable subject = "orders"
            · by_cases hfo : invFail .orders
              · right; simp [consumeCdcEvent, hr, husers, horders, hfo]
              · left; simp [consumeCdcEvent, hr, husers, horders, hfo]
            · left; simp [consumeCdcEvent, hr, husers, horders]
  · intro msg
    simp [consumeCdcEvent]

theorem C7_cdc_invalidation_witness :
    consumeCdcEvent "cdc.public.users"
        (.ok { op := "r", userId := some "u1", orderId := none }) noInvFail
      = [CdcEffect.ack] ∧
    consumeCdcEvent "cdc.public.users"
        (.ok { op := "c", userId := some "u1", orderId := none }) noInvFail
      = [CdcEffect.invalidate CacheNamespace.users, CdcEffect.ack] ∧
    consumeCdcEvent "cdc.public.users"
        (.ok { op := "d", userId := some "u1", orderId := none }) noInvFail
      = [CdcEffect.invalidate CacheNamespace.users,
          CdcEffect.invalidate CacheNamespace.orders, CdcEffect.ack] ∧
    consumeCdcEvent "cdc.public.orders"
        (.ok { op := "u", userId := none, orderId := some "o1" }) noInvFail
      = [CdcEffect.invalidate CacheNamespace.orders, CdcEffect.ack] :=
  ⟨(C7_cdc_invalidation "cdc.public.users"
      { op := "r", userId := some "u1", orderId := none } noInvFail).1 rfl,
   (C7_cdc_invalidation "cdc.public.users"
      { op := "c", userId := some "u1", orderId := none } noInvFail).2.1
      (by decide) (by decide) (by decide),
   (C7_cdc_invalidation "cdc.public.users"
      { op := "d", userId := some "u1", orderId := none } noInvFail).2.2.1
      (by decide) rfl,
   (C7_cdc_invalidation "cdc.public.orders"
      { op := "u", userId := none, orderId := some "o1" } noInvFail).2.2.2.1
      (by decide) (by decide)⟩

/-! Write processor: the BaseHandler write protocol over an explicit
Postgres state holding the write_operations ledger and the handled
domain table. -/

/-- Status values of a write_operations row. -/
inductive LedgerStatus where
  | pending
  | completed
  | failed
deriving DecidableEq, Repr

/-- A write_operations row. completedAt records whether completed_at is
set (its wall-clock value is irrelevant to the claims). -/
structure LedgerRow where
  operationId : String
  entityTable : String
  entityId : String
  opType : String
  status : LedgerStatus
  errMsg : Option String
  completedAt : Bool
deriving DecidableEq, Repr

/-- A row of the handled domain table, keyed by its entity id, with the
domain columns kept opaque. -/
structure DomainRow where
  entityId : String
  payload : String
deriving DecidableEq, Repr

/-- The relational store: the write_operations ledger plus the handled
domain table. -/
structure Db where
  ledger : List LedgerRow
  domain : List DomainRow
deriving DecidableEq, Repr

/-- The empty store. -/
def Db.empty : Db := { ledger := [], domain := [] }

/-- Does the ledger already hold a row for this operation id (the unique
constraint on operation_id)? -/
def hasOperation (db : Db) (opId : String) : Bool :=
  db.ledger.any fun row => row.operationId == opId

/-- The pending ledger row inserted by step 1 of the protocol. -/
def pendingRowOf (table opId entityId : String) : LedgerRow :=
  { operationId := opId, entityTable := table, entityId := entityId,
    opType := "create", status := .pending, errMsg := none,
    completedAt := false }

/-- The ledger row as recordFailure writes it when no row existed. -/
def failedRowOf (table opId entityId msg : String) : LedgerRow :=
  { operationId := opId, entityTable := table, entityId := entityId,
    opType := "create", status := .failed, errMsg := some msg,
    completedAt := true }

/-- The ledger row as committed by a successful transaction. -/
def completedRowOf (table opId entityId : String) : LedgerRow :=
  { operationId := opId, entityTable := table, entityId := entityId,
    opType := "create", status := .completed, errMsg := none,
    completedAt := true }

/-- The INSERT of the pending ledger row (step 1 of the protocol). -/
def insertPending (db : Db) (table opId entityId : String) : Db :=
  { db with ledger := db.ledger ++ [pendingRowOf table opId entityId] }

/-- The domain INSERT performed by the per-table insert override. -/
def insertDomain (db : Db) (entityId payload : String) : Db :=
  { db with domain := db.domain ++ [{ entityId := entityId, payload := payload }] }

/-- The UPDATE setting status completed and completed_at on the row of
this operation id. -/
def setCompleted (db : Db) (opId : String) : Db :=
  { db with ledger := db.ledger.map fun row =>
      if row.operationId == opId then
        { row with status := .completed, completedAt := true }
      else row }

/-- BaseHandler.recordFailure: INSERT a failed ledger row, ON CONFLICT on
operation_id updating only status, error and completed_at. -/
def recordFailure (db : Db) (table opId entityId errMsg : String) : Db :=
  if hasOperation db opId then
    { db with ledger := db.ledger.map fun row =>
        if row.operationId == opId then
          { row with status := .failed, errMsg := some errMsg,
                     completedAt := true }
        else row }
  else
    { db with ledger := db.ledger ++ [failedRowOf table opId entityId errMsg] }

/-- Failure injection for one processWrite call: an error raised by the
pending insert itself (besides the deterministic unique violation), an
error raised anywhere from the domain insert through the commit, and
whether the best-effort recordFailure statement itself succeeds. -/
structure PgOracle where
  pendingErr : Option Thrown
  txnErr : Option Thrown
  recordOk : Bool
deriving DecidableEq, Repr

/-- The tail of processWrite's outer catch: ROLLBACK has discarded the
transaction, then a non-retryable error is recorded best-effort through
recordFailure (a failure of that statement is swallowed) and the original
error is rethrown either way. -/
def catchRollback (db : Db) (table opId entityId : String) (e : Thrown)
    (recordOk : Bool) : Db × Except Thrown Unit :=
  if isRetryable e then (db, .error e)
  else if recordOk then
    (recordFailure db table opId entityId (errorMessage e), .error e)
  else (db, .error e)

/-- BaseHandler.processWrite: BEGIN; insert the pending ledger row, where
a unique violation (raised exactly when the operation id is already in
the ledger) rolls back and returns normally as a duplicate skip while any
other insert error is rethrown into the outer catch; then the domain
insert, the update to completed and COMMIT, any error rolling the whole
transaction back before the outer catch records non-retryable failures.
The post-commit cache invalidation is non-fatal and outside the store,
so it is not part of this state. -/
def processWrite (db : Db) (table opId entityId payload : String)
    (oracle : PgOracle) : Db × Except Thrown Unit :=
  let pendingResult : Option Thrown :=
    if hasOperation db opId then
      some (.jsError (some PG_UNIQUE_VIOLATION)
        "duplicate key value violates unique constraint")
    else oracle.pendingErr
  match pendingResult with
  | some e =>
      if hasCode e PG_UNIQUE_VIOLATION then (db, .ok ())
      else catchRollback db table opId entityId e oracle.recordOk
  | none =>
      match oracle.txnErr with
      | some e => catchRollback db table opId entityId e oracle.recordOk
      | none =>
          (setCompleted (insertDomain (insertPending db table opId entityId)
            entityId payload) opId, .ok ())

/-- A decoded write request (shared WriteRequest, data kept opaque). -/
structure WriteRequest where
  operationId : String
  table : String
  payload : String
  queuedAt : Option String
deriving DecidableEq, Repr

/-- Consumer max_deliver is 3, so redelivery count 2 is the final attempt. -/
def MAX_REDELIVERY_COUNT : Nat := 2

/-- The DLQ message body built by publishToDlq. -/
structure DlqPayload where
  originalSubject : String
  operationId : String
  table : String
  payload : String
  queuedAt : Option String
  errMsg : String
  failedAt : String
  redeliveryCount : Nat
deriving DecidableEq, Repr

/-- DLQ payload construction from publishToDlq. -/
def mkDlqPayload (subject : String) (req : WriteRequest) (e : Thrown)
    (redeliveryCount : Nat) (failedAt : String) : DlqPayload :=
  { originalSubject := subject, operationId := req.operationId,
    table := req.table, payload := req.payload, queuedAt := req.queuedAt,
    errMsg := errorMessage e, failedAt := failedAt,
    redeliveryCount := redeliveryCount }

/-- Observable message-level effects of one handleMessage call, in order.
publishDlq is awaited before the following ack is issued. -/
inductive MsgEffect where
  | ack
  | nak (delayMs : Nat)
  | publishDlq (subject : String) (p : DlqPayload)
deriving DecidableEq, Repr

/-- BaseHandler.handleMessage: decode the payload (this happens before
the try block, so a decode error escapes the handler with no effect
emitted and no ledger write), run processWrite, ack on success, and on
error nak retryable failures with a 1 s delay until the final attempt,
which publishes to the DLQ subject of the handler table and then acks;
non-retryable errors are acked (their failure row was recorded inside
processWrite). Returns the store, the effects in order, and the
exception escaping the handler, if any. -/
def handleMessage (db : Db) (handlerTable subject : String)
    (redeliveryCount : Nat) (decoded : Except Thrown WriteRequest)
    (entityId : String) (oracle : PgOracle) (failedAt : String) :
    Db × List MsgEffect × Option Thrown :=
  match decoded with
  | .error e => (db, [], some e)
  | .ok req =>
      let r := processWrite db handlerTable req.operationId entityId
        req.payload oracle
      match r.2 with
      | .ok _ => (r.1, [.ack], none)
      | .error e =>
          if isRetryable e then
            if MAX_REDELIVERY_COUNT ≤ redeliveryCount then
              (r.1, [.publishDlq ("writes-dlq." ++ handlerTable)
                  (mkDlqPayload subject req e redeliveryCount failedAt),
                .ack], none)
            else (r.1, [.nak 1000], none)
          else (r.1, [.ack], none)

/-- C1: a delivery whose operation id already has a ledger row is a
no-op: the pending insert raises the unique violation, the transaction
is rolled back leaving the store (ledger and domain table) exactly as it
was, processWrite returns normally, and the message is acked; so the
domain row is inserted at most once per operation id. -/
theorem C1_duplicate_delivery_noop (db : Db) (handlerTable subject : String)
    (redeliveryCount : Nat) (req : WriteRequest) (entityId : String)
    (oracle : PgOracle) (failedAt : String)
    (hdup : hasOperation db req.operationId = true) :
    processWrite db handlerTable req.operationId entityId req.payload oracle
      = (db, .ok ()) ∧
    handleMessage db handlerTable subject redeliveryCount (.ok req) entityId
        oracle failedAt
      = (db, [MsgEffect.ack], none) := by
  have h1 : processWrite db handlerTable req.operationId entityId
      req.payload oracle = (db, .ok ()) := by
    simp [processWrite, hdup, hasCode, PG_UNIQUE_VIOLATION]
  refine ⟨h1, ?_⟩
  simp [handleMessage, h1]

/-- A concrete store already holding a completed row for op1. -/
def dbDup : Db :=
  { ledger := [{ operationId := "op1", entityTable := "users",
                 entityId := "e1", opType := "create",
                 status := LedgerStatus.completed, errMsg := none,
                 completedAt := true }],
    domain := [{ entityId := "e1", payload := "alice" }] }

/-- A concrete redelivery of op1. -/
def reqDup : WriteRequest :=
  { operationId := "op1", table := "users", payload := "alice",
    queuedAt := none }

theorem C1_duplicate_delivery_noop_witness :
    handleMessage dbDup "users" "writes.users" 0 (.ok reqDup) "e2"
        { pendingErr := none, txnErr := none, recordOk := true } "t"
      = (dbDup, [MsgEffect.ack], none) :=
  (C1_duplicate_delivery_noop dbDup "users" "writes.users" 0 reqDup "e2"
    { pendingErr := none, txnErr := none, recordOk := true } "t"
    (by decide)).2

/-- C6: the code parses the payload before the try block, so a message
whose payload fails to decode is neither recorded as a failure nor
acked: the exception escapes handleMessage with no effect emitted,
contradicting the specified decode-failure handling. -/
theorem C6_poison_payload_escapes_unacked :
    handleMessage Db.empty "users" "writes.users" 0
        (.error (Thrown.jsError none "Unexpected end of JSON input")) "e1"
        { pendingErr := none, txnErr := none, recordOk := true } "t"
      = (Db.empty, [],
          some (Thrown.jsError none "Unexpected end of JSON input")) := rfl

/-- The rethrown error of catchRollback is the caught one. -/
theorem catchRollback_snd (db : Db) (table opId entityId : String)
    (e : Thrown) (recordOk : Bool) :
    (catchRollback db table opId entityId e recordOk).2 = .error e := by
  by_cases h : isRetryable e = true <;>
    by_cases h2 : recordOk = true <;> simp [catchRollback, h, h2]

/-- The rollback of a retryable error records nothing. -/
theorem catchRollback_retryable (db : Db) (table opId entityId : String)
    (e : Thrown) (recordOk : Bool) (hretry : isRetryable e = true) :
    catchRollback db table opId entityId e recordOk = (db, .error e) := by
  simp [catchRollback, hretry]

/-- On a retryable error, processWrite leaves the store unchanged: the
transaction was rolled back and recordFailure is skipped. -/
theorem processWrite_retryable_unchanged (db : Db)
    (table opId entityId payload : String) (oracle : PgOracle) (e : Thrown)
    (herr : (processWrite db table opId entityId payload oracle).2 = .error e)
    (hretry : isRetryable e = true) :
    (processWrite db table opId entityId payload oracle).1 = db := by
  by_cases hdup : hasOperation db opId = true
  · simp [processWrite, hdup, hasCode, PG_UNIQUE_VIOLATION] at herr
  · rw [Bool.not_eq_true] at hdup
    cases hpe : oracle.pendingErr with
    | some e2 =>
        by_cases hc : hasCode e2 PG_UNIQUE_VIOLATION = true
        · simp [processWrite, hdup, hpe, hc] at herr
        · rw [Bool.not_eq_true] at hc
          have hpw : processWrite db table opId entityId payload oracle =
              catchRollback db table opId entityId e2 oracle.recordOk := by
            simp [processWrite, hdup, hpe, hc]
          rw [hpw] at herr ⊢
          have he : e2 = e := Except.error.inj
            ((catchRollback_snd db table opId entityId e2
              oracle.recordOk).symm.trans herr)
          subst he
          rw [catchRollback_retryable db table opId entityId e2
            oracle.recordOk hretry]
    | none =>
        cases hte : oracle.txnErr with
        | some e2 =>
            have hpw : processWrite db table opId entityId payload oracle =
                catchRollback db table opId entityId e2 oracle.recordOk := by
              simp [processWrite, hdup, hpe, hte]
            rw [hpw] at herr ⊢
            have he : e2 = e := Except.error.inj
              ((catchRollback_snd db table opId entityId e2
                oracle.recordOk).symm.trans herr)
            subst he
            rw [catchRollback_retryable db table opId entityId e2
              oracle.recordOk hretry]
        | none => simp [processWrite, hdup, hpe, hte] at herr

/-- C4: when processing raises a retryable error, a redelivery count
below MAX_REDELIVERY_COUNT (max_deliver minus one) naks the message with
a 1 s delay, while the final attempt publishes to writes-dlq followed by
the handler table name, carrying the original subject, operation id,
table, payload, error message and redelivery count, and acks the
original only after that publish; in both cases the store, hence the
ledger, is untouched. -/
theorem C4_retryable_nak_then_dlq (db : Db) (handlerTable subject : String)
    (redeliveryCount : Nat) (req : WriteRequest) (entityId : String)
    (oracle : PgOracle) (failedAt : String) (e : Thrown)
    (herr : (processWrite db handlerTable req.operationId entityId
        req.payload oracle).2 = .error e)
    (hretry : isRetryable e = true) :
    (redeliveryCount < MAX_REDELIVERY_COUNT →
      handleMessage db handlerTable subject redeliveryCount (.ok req)
          entityId oracle failedAt
        = (db, [MsgEffect.nak 1000], none)) ∧
    (MAX_REDELIVERY_COUNT ≤ redeliveryCount →
      handleMessage db handlerTable subject redeliveryCount (.ok req)
          entityId oracle failedAt
        = (db, [MsgEffect.publishDlq ("writes-dlq." ++ handlerTable)
              { originalSubject := subject, operationId := req.operationId,
                table := req.table, payload := req.payload,
                queuedAt := req.queuedAt, errMsg := errorMessage e,
                failedAt := failedAt, redeliveryCount := redeliveryCount },
            MsgEffect.ack], none)) := by
  have hdb : (processWrite db handlerTable req.operationId entityId
      req.payload oracle).1 = db :=
    processWrite_retryable_unchanged db handlerTable req.operationId
      entityId req.payload oracle e herr hretry
  constructor
  · intro hlt
    have hnotle : ¬ MAX_REDELIVERY_COUNT ≤ redeliveryCount :=
      Nat.not_le.mpr hlt
    simp [handleMessage, herr, hretry, hnotle, hdb]
  · intro hle
    simp [handleMessage, herr, hretry, hle, hdb, mkDlqPayload]

theorem C4_retryable_nak_then_dlq_witness :
    handleMessage Db.empty "users" "writes.users" 1
        (.ok { operationId := "op1", table := "users", payload := "alice",
               queuedAt := some "q" })
        "e1"
        { pendingErr := none,
          txnErr := some (Thrown.jsError (some "08006") "connection failure"),
          recordOk := true } "t"
      = (Db.empty, [MsgEffect.nak 1000], none) ∧
    handleMessage Db.empty "users" "writes.users" 2
        (.ok { operationId := "op1", table := "users", payload := "alice",
               queuedAt := some "q" })
        "e1"
        { pendingErr := none,
          txnErr := some (Thrown.jsError (some "08006") "connection failure"),
          recordOk := true } "t"
      = (Db.empty,
          [MsgEffect.publishDlq "writes-dlq.users"
              { originalSubject := "writes.users", operationId := "op1",
                table := "users", payload := "alice", queuedAt := some "q",
                errMsg := "connection failure", failedAt := "t",
                redeliveryCount := 2 },
            MsgEffect.ack], none) :=
  ⟨(C4_retryable_nak_then_dlq Db.empty "users" "writes.users" 1
      { operationId := "op1", table := "users", payload := "alice",
        queuedAt := some "q" } "e1"
      { pendingErr := none,
        txnErr := some (Thrown.jsError (some "08006") "connection failure"),
        recordOk := true } "t"
      (Thrown.jsError (some "08006") "connection failure")
      rfl (by decide)).1 (by decide),
   (C4_retryable_nak_then_dlq Db.empty "users" "writes.users" 2
      { operationId := "op1", table := "users", payload := "alice",
        queuedAt := some "q" } "e1"
      { pendingErr := none,
        txnErr := some (Thrown.jsError (some "08006") "connection failure"),
        recordOk := true } "t"
      (Thrown.jsError (some "08006") "connection failure")
      rfl (by decide)).2 (by decide)⟩

/-! Status-row coupling invariant over sequences of deliveries. -/

/-- The status-row coupling of the spec: a completed ledger row has its
domain row, a failed ledger row has no domain row with its entity id,
and a pending row carries no terminal metadata. -/
def statusRowCoupling (db : Db) : Prop :=
  ∀ row ∈ db.ledger,
    (row.status = LedgerStatus.completed →
      ∃ d ∈ db.domain, d.entityId = row.entityId) ∧
    (row.status = LedgerStatus.failed →
      ∀ d ∈ db.domain, d.entityId ≠ row.entityId) ∧
    (row.status = LedgerStatus.pending →
      row.completedAt = false ∧ row.errMsg = none)

/-- Every entity id occurring anywhere in the store. -/
def Db.entityIds (db : Db) : List String :=
  db.ledger.map LedgerRow.entityId ++ db.domain.map DomainRow.entityId

theorem mem_entityIds (db : Db) (x : String) :
    x ∈ db.entityIds ↔
      (∃ row ∈ db.ledger, row.entityId = x) ∨
      ∃ d ∈ db.domain, d.entityId = x := by
  simp [Db.entityIds]

/-- One delivery consumed by the handler loop: the decoded request fields
together with the failure injection of its processWrite call. The
processor draws entityId freshly from randomUUID. -/
structure Delivery where
  operationId : String
  entityId : String
  payload : String
  oracle : PgOracle
deriving DecidableEq, Repr

/-- The store after the handler processes a list of deliveries in order. -/
def processAll (table : String) (db : Db) : List Delivery → Db
  | [] => db
  | d :: ds =>
      processAll table
        (processWrite db table d.operationId d.entityId d.payload d.oracle).1 ds

theorem hasOperation_eq_false_iff (db : Db) (opId : String) :
    hasOperation db opId = false ↔ ∀ row ∈ db.ledger, row.operationId ≠ opId := by
  rw [Bool.eq_false_iff]
  simp [hasOperation, List.any_eq_true]

/-- recordFailure on an absent operation id appends the failed row. -/
theorem recordFailure_fresh (db : Db) (table opId entityId msg : String)
    (hdup : hasOperation db opId = false) :
    recordFailure db table opId entityId msg =
      { db with ledger := db.ledger ++ [failedRowOf table opId entityId msg] } := by
  simp [recordFailure, hdup]

/-- The shape of a fully successful processWrite: the committed
transaction appended exactly the completed ledger row and the domain
row. -/
theorem processWrite_success_shape (db : Db)
    (table opId entityId payload : String) (oracle : PgOracle)
    (hdup : hasOperation db opId = false)
    (hpe : oracle.pendingErr = none) (hte : oracle.txnErr = none) :
    processWrite db table opId entityId payload oracle =
      ({ ledger := db.ledger ++ [completedRowOf table opId entityId],
         domain := db.domain ++ [{ entityId := entityId, payload := payload }] },
        Except.ok ()) := by
  have hall : ∀ row ∈ db.ledger, (row.operationId == opId) = false := by
    intro row hrow
    rw [beq_eq_false_iff_ne]
    exact (hasOperation_eq_false_iff db opId).mp hdup row hrow
  have h1 : processWrite db table opId entityId payload oracle =
      (setCompleted (insertDomain (insertPending db table opId entityId)
        entityId payload) opId, .ok ()) := by
    simp [processWrite, hdup, hpe, hte]
  have hmap : (db.ledger ++ [pendingRowOf table opId entityId]).map
      (fun row => if row.operationId == opId then
        { row with status := LedgerStatus.completed, completedAt := true }
      else row) = db.ledger ++ [completedRowOf table opId entityId] := by
    rw [List.map_append]
    congr 1
    · conv_rhs => rw [← List.map_id db.ledger]
      exact List.map_congr_left fun row hrow => by simp [hall row hrow]
    · simp [pendingRowOf, completedRowOf]
  rw [h1]
  simp only [setCompleted, insertDomain, insertPending, hmap]

/-- A rolled-back delivery that records its failure preserves the
coupling: the appended failed row's fresh entity id has no domain row. -/
theorem catchRollback_preserves (db : Db) (table opId entityId : String)
    (e : Thrown) (recordOk : Bool)
    (hcoup : statusRowCoupling db) (hfresh : entityId ∉ db.entityIds)
    (hdup : hasOperation db opId = false) :
    statusRowCoupling (catchRollback db table opId entityId e recordOk).1 ∧
    ∀ x ∈ (catchRollback db table opId entityId e recordOk).1.entityIds,
      x = entityId ∨ x ∈ db.entityIds := by
  by_cases hr : isRetryable e = true
  · rw [catchRollback_retryable db table opId entityId e recordOk hr]
    exact ⟨hcoup, fun x hx => Or.inr hx⟩
  · rw [Bool.not_eq_true] at hr
    by_cases hrec : recordOk = true
    · have hcr : catchRollback db table opId entityId e recordOk =
          (recordFailure db table opId entityId (errorMessage e),
            .error e) := by
        simp [catchRollback, hr, hrec]
      rw [hcr, recordFailure_fresh db table opId entityId (errorMessage e) hdup]
      constructor
      · intro row hrow
        rcases List.mem_append.mp hrow with hold | hnew
        · exact hcoup row hold
        · have hr2 : row = failedRowOf table opId entityId (errorMessage e) := by
            simpa using hnew
          subst hr2
          refine ⟨?_, ?_, ?_⟩
          · intro hs; simp [failedRowOf] at hs
          · intro _ d hd heq
            exact hfresh ((mem_entityIds db entityId).mpr
              (Or.inr ⟨d, hd, by simpa [failedRowOf] using heq⟩))
          · intro hs; simp [failedRowOf] at hs
      · intro x hx
        rcases (mem_entityIds _ x).mp hx with ⟨row, hrow, he⟩ | ⟨d, hd, he⟩
        · rcases List.mem_append.mp hrow with hold | hnew
          · exact Or.inr ((mem_entityIds db x).mpr (Or.inl ⟨row, hold, he⟩))
          · have hr2 : row = failedRowOf table opId entityId (errorMessage e) := by
              simpa using hnew
            subst hr2
            exact Or.inl (by simpa [failedRowOf] using he.symm)
        · exact Or.inr ((mem_entityIds db x).mpr (Or.inr ⟨d, hd, he⟩))
    · have hcr : catchRollback db table opId entityId e recordOk =
          (db, .error e) := by
        simp [catchRollback, hr, hrec]
      rw [hcr]
      exact ⟨hcoup, fun x hx => Or.inr hx⟩

/-- A committed delivery preserves the coupling: the new completed row is
backed by the new domain row, and older failed rows cannot collide with
the fresh entity id. -/
theorem commit_preserves (db : Db) (table opId entityId payload : String)
    (hcoup : statusRowCoupling db) (hfresh : entityId ∉ db.entityIds) :
    statusRowCoupling
      { ledger := db.ledger ++ [completedRowOf table opId entityId],
        domain := db.domain ++ [{ entityId := entityId, payload := payload }] } ∧
    ∀ x ∈ (Db.mk (db.ledger ++ [completedRowOf table opId entityId])
        (db.domain ++ [{ entityId := entityId, payload := payload }])).entityIds,
      x = entityId ∨ x ∈ db.entityIds := by
  have hfreshL : ∀ row ∈ db.ledger, row.entityId ≠ entityId := by
    intro row hrow heq
    exact hfresh ((mem_entityIds db entityId).mpr (Or.inl ⟨row, hrow, heq⟩))
  constructor
  · intro row hrow
    rcases List.mem_append.mp hrow with hold | hnew
    · obtain ⟨hcomp, hfail, hpend⟩ := hcoup row hold
      refine ⟨?_, ?_, hpend⟩
      · intro hs
        obtain ⟨d, hd, he⟩ := hcomp hs
        exact ⟨d, List.mem_append_left _ hd, he⟩
      · intro hs d hd
        rcases List.mem_append.mp hd with hd1 | hd2
        · exact hfail hs d hd1
        · have hd3 : d = { entityId := entityId, payload := payload } := by
            simpa using hd2
          subst hd3
          intro heq
          exact hfreshL row hold heq.symm
    · have hr2 : row = completedRowOf table opId entityId := by simpa using hnew
      subst hr2
      refine ⟨?_, ?_, ?_⟩
      · intro _
        exact ⟨{ entityId := entityId, payload := payload },
          List.mem_append_right _ (by simp), rfl⟩
      · intro hs; simp [completedRowOf] at hs
      · intro hs; simp [completedRowOf] at hs
  · intro x hx
    rcases (mem_entityIds _ x).mp hx with ⟨row, hrow, he⟩ | ⟨d, hd, he⟩
    · rcases List.mem_append.mp hrow with hold | hnew
      · exact Or.inr ((mem_entityIds db x).mpr (Or.inl ⟨row, hold, he⟩))
      · have hr2 : row = completedRowOf table opId entityId := by simpa using hnew
        subst hr2
        exact Or.inl (by simpa [completedRowOf] using he.symm)
    · rcases List.mem_append.mp hd with hd1 | hd2
      · exact Or.inr ((mem_entityIds db x).mpr (Or.inr ⟨d, hd1, he⟩))
      · have hd3 : d = { entityId := entityId, payload := payload } := by
          simpa using hd2
        subst hd3
        exact Or.inl he.symm

/-- One processWrite call, however it ends, preserves the coupling and
introduces no entity id besides its own fresh one. -/
theorem processWrite_step_preserves (db : Db)
    (table opId entityId payload : String) (oracle : PgOracle)
    (hcoup : statusRowCoupling db)
    (hfresh : entityId ∉ db.entityIds) :
    statusRowCoupling (processWrite db table opId entityId payload oracle).1 ∧
    ∀ x ∈ (processWrite db table opId entityId payload oracle).1.entityIds,
      x = entityId ∨ x ∈ db.entityIds := by
  by_cases hdup : hasOperation db opId = true
  · have h : processWrite db table opId entityId payload oracle =
        (db, .ok ()) := by
      simp [processWrite, hdup, hasCode, PG_UNIQUE_VIOLATION]
    rw [h]
    exact ⟨hcoup, fun x hx => Or.inr hx⟩
  · rw [Bool.not_eq_true] at hdup
    cases hpe : oracle.pendingErr with
    | some e2 =>
        by_cases hc : hasCode e2 PG_UNIQUE_VIOLATION = true
        · have h : processWrite db table opId entityId payload oracle =
              (db, .ok ()) := by
            simp [processWrite, hdup, hpe, hc]
          rw [h]
          exact ⟨hcoup, fun x hx => Or.inr hx⟩
        · rw [Bool.not_eq_true] at hc
          have h : processWrite db table opId entityId payload oracle =
              catchRollback db table opId entityId e2 oracle.recordOk := by
            simp [processWrite, hdup, hpe, hc]
          rw [h]
          exact catchRollback_preserves db table opId entityId e2
            oracle.recordOk hcoup hfresh hdup
    | none =>
        cases hte : oracle.txnErr with
        | some e2 =>
            have h : processWrite db table opId entityId payload oracle =
                catchRollback db table opId entityId e2 oracle.recordOk := by
              simp [processWrite, hdup, hpe, hte]
            rw [h]
            exact catchRollback_preserves db table opId entityId e2
              oracle.recordOk hcoup hfresh hdup
        | none =>
            rw [processWrite_success_shape db table opId entityId payload
              oracle hdup hpe hte]
            exact commit_preserves db table opId entityId payload hcoup hfresh

/-- The coupling is preserved along any delivery list whose fresh entity
ids are distinct and unused. -/
theorem processAll_preserves (table : String) (ds : List Delivery) (db : Db)
    (hcoup : statusRowCoupling db)
    (hnd : (ds.map Delivery.entityId).Nodup)
    (hfresh : ∀ d ∈ ds, d.entityId ∉ db.entityIds) :
    statusRowCoupling (processAll table db ds) := by
  induction ds generalizing db with
  | nil => exact hcoup
  | cons d ds ih =>
      simp only [processAll]
      obtain ⟨h1, h2⟩ := processWrite_step_preserves db table d.operationId
        d.entityId d.payload d.oracle hcoup (hfresh d (List.mem_cons_self d ds))
      have hnd0 : (∀ x ∈ ds, ¬ x.entityId = d.entityId) ∧
          (List.map Delivery.entityId ds).Nodup := by simpa using hnd
      apply ih _ h1 hnd0.2
      intro d2 hd2 hmem
      rcases h2 _ hmem with heq | hold
      · exact hnd0.1 d2 hd2 heq
      · exact hfresh d2 (List.mem_cons_of_mem d hd2) hold

/-- C2: after the handler processes any sequence of deliveries starting
from an empty store, drawing pairwise distinct fresh entity ids, every
ledger row satisfies the status-row coupling: completed rows have the
domain row keyed by their entity id, failed rows have none, and pending
rows carry neither completed_at nor error. The pending insert, domain
insert and completion update commit atomically (processWrite either
appends both rows or, on failure, first restores the pre-transaction
store and only then records the failure row). -/
theorem C2_status_row_coupling (table : String) (ds : List Delivery)
    (hnd : (ds.map Delivery.entityId).Nodup) :
    statusRowCoupling (processAll table Db.empty ds) :=
  processAll_preserves table ds Db.empty
    (fun row hrow => by simp [Db.empty] at hrow)
    hnd
    (fun d _ hmem => by simp [Db.empty, Db.entityIds] at hmem)

theorem C2_status_row_coupling_witness :
    statusRowCoupling (processAll "users" Db.empty
      [{ operationId := "op1", entityId := "e1", payload := "alice",
         oracle := { pendingErr := none, txnErr := none, recordOk := true } },
       { operationId := "op2", entityId := "e2", payload := "bob",
         oracle := { pendingErr := none,
                     txnErr := some (Thrown.jsError (some "23503")
                       "violates foreign key constraint"),
                     recordOk := true } },
       { operationId := "op1", entityId := "e3", payload := "alice",
         oracle := { pendingErr := none, txnErr := none, recordOk := true } }]) :=
  C2_status_row_coupling "users"
    [{ operationId := "op1", entityId := "e1", payload := "alice",
       oracle := { pendingErr := none, txnErr := none, recordOk := true } },
     { operationId := "op2", entityId := "e2", payload := "bob",
       oracle := { pendingErr := none,
                   txnErr := some (Thrown.jsError (some "23503")
                     "violates foreign key constraint"),
                   recordOk := true } },
     { operationId := "op1", entityId := "e3", payload := "alice",
       oracle := { pendingErr := none, txnErr := none, recordOk := true } }]
    (by decide)

end JPW
